import Mathlib

set_option maxRecDepth 8000

/-
Verification of the react-synced-object core (SyncedObjectManager and the
useSyncedObject hook wrapper). The embedding follows the current manager
source (the variant exporting deleteSyncedObject, with the SyncedObject
class, consolidated validateInput, and the debounced queueSyncTask that
always goes through the pending-task map).

Modelling conventions:
- JSON-like payloads are the inductive Value below. The persistence backend
  stores the JSON-serialized string form of data; serialization is the
  out-of-scope backend adapter, so local-storage slots are modelled at
  value granularity (a slot is present or absent, and holds a Value).
- Caller-supplied pull and push hooks receive the whole synced object in
  the JavaScript source; they are modelled as functions of the data
  payload (the observationally relevant argument), since a structure whose
  fields are functions of the structure itself is not well-founded.
  A raised exception is an Error object, modelled by its message String.
  Error objects are always truthy, so the truthiness test on a caught
  error is modelled as Option.isSome.
- onSuccess and onError presence is modelled by Boolean flags; their
  invocation is recorded in the event trace.
- deleteSyncedObject overwrites the modify method of the removed instance
  with a throwing function; this is modelled by the deleted flag, which
  SyncedObject.modify checks first.
-/

namespace ReactSyncedObject

/-- JSON-like values held in SyncedObject.data and in browser local storage. -/
inductive Value where
  | nullV : Value
  | boolV : Bool → Value
  | numV : Int → Value
  | strV : String → Value
  | objV : List (String × Value) → Value

/-- JavaScript truthiness of a Value. -/
def Value.truthy : Value → Bool
  | .nullV => false
  | .boolV b => b
  | .numV n => n != 0
  | .strV s => s != ""
  | .objV _ => true

/-- data.hasOwnProperty(p): whether the payload is an object owning field p. -/
def Value.hasOwn : Value → String → Bool
  | .objV fields, p => fields.any (fun f => f.1 == p)
  | _, _ => false

/-- Map.get semantics on an association list keyed by strings. -/
def lookupA {α : Type} (l : List (String × α)) (k : String) : Option α :=
  (l.find? (fun e => e.1 == k)).map (fun e => e.2)

/-- Map.delete semantics: drop every entry with the given key. -/
def eraseA {α : Type} (l : List (String × α)) (k : String) : List (String × α) :=
  l.filter (fun e => e.1 != k)

/-- Map.set semantics: the key maps to exactly the new value afterwards.
JavaScript Map keys are unique, so position in the list is irrelevant. -/
def setA {α : Type} (l : List (String × α)) (k : String) (v : α) : List (String × α) :=
  (k, v) :: eraseA l k

/-- Number of entries carrying the given key. -/
def countKey {α : Type} (l : List (String × α)) (k : String) : Nat :=
  (l.filter (fun e => e.1 == k)).length

/-- The Map invariant: no key appears twice. -/
def keysNodup {α : Type} (l : List (String × α)) : Prop :=
  (l.map Prod.fst).Nodup

instance {α : Type} (l : List (String × α)) : Decidable (keysNodup l) := by
  unfold keysNodup; infer_instance

/-- The structured error raised at the API boundary. -/
structure SyncedObjectError where
  message : String
  syncedObjectKey : String
  functionName : String
deriving Repr, DecidableEq

/-- SyncedObject.state: result of the most recent sync attempt. -/
structure ObjectState where
  success : Option Bool
  error : Option String
deriving Repr, DecidableEq

/-- The tracked entity, mirroring the SyncedObject class fields. -/
structure SyncedObject where
  key : String
  type : String
  data : Value
  changelog : List String
  debounceTime : Nat
  reloadBehavior : String
  safeMode : Bool
  callerId : Option Nat
  pull : Option (Value → Except String Value) := none
  push : Option (Value → Except String Unit) := none
  onSuccess : Bool := false
  onError : Bool := false
  state : ObjectState := ⟨none, none⟩
  deleted : Bool := false

/-- The outcome a sync attempt is reduced to: requestType, success, error. -/
structure SyncOutcome where
  requestType : String
  success : Option Bool
  error : Option String
deriving Repr, DecidableEq

/-- Payload of the broadcast syncedObjectEvent, exactly the fields the
current updateComponents puts in event.detail. -/
structure EventDetail where
  key : String
  changelog : List String
  requestType : String
  callerId : Option Nat
deriving Repr, DecidableEq

/-- Observable effects of a sync attempt, in order of occurrence. -/
inductive SyncEv where
  | lsWrite : String → SyncEv
  | hookPullCall : String → SyncEv
  | hookPushCall : String → SyncEv
  | cbSuccess : String → SyncEv
  | cbError : String → SyncEv
  | notify : EventDetail → SyncEv
deriving Repr, DecidableEq

/-- Whether an effect is a broadcast syncedObjectEvent. -/
def SyncEv.isNotify : SyncEv → Bool
  | .notify _ => true
  | _ => false

/-- Whether an effect is a local-storage write. -/
def SyncEv.isLsWrite : SyncEv → Bool
  | .lsWrite _ => true
  | _ => false

/-- Whether an effect is an invocation of the custom push hook. -/
def SyncEv.isHookPush : SyncEv → Bool
  | .hookPushCall _ => true
  | _ => false

abbrev LocalStore := List (String × Value)

/-- pushToLocal: persist data to the store slot named by the key. -/
def pushToLocal (ls : LocalStore) (obj : SyncedObject) :
    LocalStore × SyncedObject × List SyncEv :=
  (setA ls obj.key obj.data, obj, [SyncEv.lsWrite obj.key])

/-- pullFromLocal: read the slot; if absent, fall back to pushToLocal. -/
def pullFromLocal (ls : LocalStore) (obj : SyncedObject) :
    LocalStore × SyncedObject × List SyncEv :=
  match lookupA ls obj.key with
  | some v => (ls, { obj with data := v }, [])
  | none => pushToLocal ls obj

/-- pushToCustom: invoke the push hook if present; its return value is
ignored, a raised error propagates to the executor boundary. -/
def pushToCustom (obj : SyncedObject) : Except String (SyncedObject × List SyncEv) :=
  match obj.push with
  | none => .ok (obj, [])
  | some g =>
    match g obj.data with
    | .ok _ => .ok (obj, [SyncEv.hookPushCall obj.key])
    | .error e => .error e

/-- pullFromCustom: invoke the pull hook if present; a truthy response
replaces data wholesale, a falsy response falls back to pushToCustom. -/
def pullFromCustom (obj : SyncedObject) : Except String (SyncedObject × List SyncEv) :=
  match obj.pull with
  | none => .ok (obj, [])
  | some f =>
    match f obj.data with
    | .error e => .error e
    | .ok response =>
      if response.truthy then
        .ok ({ obj with data := response }, [SyncEv.hookPullCall obj.key])
      else
        match pushToCustom obj with
        | .ok (o, evs) => .ok (o, SyncEv.hookPullCall obj.key :: evs)
        | .error e => .error e

/-- updateComponents: record the outcome on the object state and dispatch
one syncedObjectEvent whose detail is key, changelog, requestType, callerId. -/
def updateComponents (obj : SyncedObject) (status : SyncOutcome) :
    SyncedObject × SyncEv :=
  ({ obj with state := ⟨status.success, status.error⟩ },
   SyncEv.notify ⟨obj.key, obj.changelog, status.requestType, obj.callerId⟩)

/-- handleCallBacks: for temp objects, reset the changelog and callerId and
mark success without emitting anything; otherwise run callbacks, update
components, clear the changelog only on success, and reset callerId. -/
def handleCallBacks (obj : SyncedObject) (status : SyncOutcome) :
    SyncedObject × List SyncEv :=
  if obj.type = "temp" then
    ({ obj with changelog := [], callerId := none,
                state := ⟨some true, obj.state.error⟩ }, [])
  else
    let cb1 : List SyncEv :=
      if status.success == some true && obj.onSuccess then
        [SyncEv.cbSuccess obj.key] else []
    let cb2 : List SyncEv :=
      if status.error.isSome && obj.onError then
        [SyncEv.cbError obj.key] else []
    let p := updateComponents obj status
    let obj2 := if status.success == some true then
        { p.1 with changelog := [] } else p.1
    ({ obj2 with callerId := none }, cb1 ++ cb2 ++ [p.2])

/-- The try block of forceSyncTask: dispatch on object type and request
type; an error thrown by a custom hook escapes to the catch clause. -/
def syncTry (ls : LocalStore) (obj : SyncedObject) (requestType : String) :
    Except String (LocalStore × SyncedObject × List SyncEv) :=
  if obj.type = "local" then
    if requestType = "push" then .ok (pushToLocal ls obj)
    else if requestType = "pull" then .ok (pullFromLocal ls obj)
    else .ok (ls, obj, [])
  else if obj.type = "custom" then
    if requestType = "push" then
      match pushToCustom obj with
      | .ok (o, evs) => .ok (ls, o, evs)
      | .error e => .error e
    else if requestType = "pull" then
      match pullFromCustom obj with
      | .ok (o, evs) => .ok (ls, o, evs)
      | .error e => .error e
    else .ok (ls, obj, [])
  else .ok (ls, obj, [])

/-- Result of one immediate sync: new store, new object, outcome, effects. -/
structure SyncResult where
  localStorage : LocalStore
  obj : SyncedObject
  outcome : SyncOutcome
  events : List SyncEv

/-- forceSyncTask: run the sync body, catching any hook exception at this
boundary and reducing it to a failure outcome; then handleCallBacks. -/
def forceSyncTask (ls : LocalStore) (obj : SyncedObject) (requestType : String) :
    SyncResult :=
  match syncTry ls obj requestType with
  | .error e =>
    let st : SyncOutcome := ⟨requestType, some false, some e⟩
    let p := handleCallBacks obj st
    ⟨ls, p.1, st, p.2⟩
  | .ok (ls1, obj1, evs0) =>
    let st : SyncOutcome := ⟨requestType, some true, none⟩
    let p := handleCallBacks obj1 st
    ⟨ls1, p.1, st, evs0 ++ p.2⟩

/-- The modification branch of validateInput. The whole property block is
guarded by truthiness (if (property)), so a falsy empty-string property
skips every check and passes validation; since the parsed property is
always a string there, the non-empty-string error of the source is
unreachable and only the hasOwnProperty check remains. The debounce check
(truthy and not a non-negative number) cannot fire for a Nat. Safe mode
off skips everything. -/
def modificationErrors (obj : SyncedObject) (property : Option String) : List String :=
  if obj.safeMode = false then []
  else
    match property with
    | some p =>
      if p = "" then []
      else if !(obj.data.hasOwn p) then
        ["parameter property must be a property of the synced object data"]
      else []
    | none => []

/-- Argument shapes of modify(arg1, arg2): a string arg1 selects the
property form (arg2 the optional debounce), otherwise arg1 is the optional
debounce. A missing debounce defaults to the object debounceTime. -/
inductive ModifyArg where
  | propArg : String → Option Nat → ModifyArg
  | dtArg : Option Nat → ModifyArg
deriving Repr, DecidableEq

/-- The property named by the call, if any. -/
def argProperty : ModifyArg → Option String
  | .propArg p _ => some p
  | .dtArg _ => none

/-- The effective debounce interval of the call. -/
def effDebounce (obj : SyncedObject) : ModifyArg → Nat
  | .propArg _ d => d.getD obj.debounceTime
  | .dtArg d => d.getD obj.debounceTime

/-- A scheduled-but-not-executed sync task for a key. -/
structure PendingTask where
  fireAt : Nat
  requestType : String
deriving Repr, DecidableEq

abbrev PendingMap := List (String × PendingTask)

/-- queueSyncTask: clear any outstanding timer for the key and arm a fresh
one; the pending map ends up with exactly one record for the key. -/
def queueSyncTask (pending : PendingMap) (key : String) (now debounceTime : Nat)
    (requestType : String) : PendingMap :=
  setA pending key ⟨now + debounceTime, requestType⟩

/-- Tasks enqueued with setTimeout(..., 0): delivered on a later tick. -/
inductive Deferred where
  | modifyNotify : String → Deferred
  | deleteNotify : String → Deferred
deriving Repr, DecidableEq

/-- The changelog step of handleModifications, mirroring
if (property && !changelog.includes(property)): push the named property
only when it is truthy (non-empty) and not already present. -/
def changelogPush (obj : SyncedObject) : Option String → SyncedObject
  | some p =>
    if ¬ p = "" ∧ ¬ p ∈ obj.changelog then
      { obj with changelog := obj.changelog ++ [p] }
    else obj
  | none => obj

/-- handleModifications: parse the property and debounce, validate, append
the property to the changelog when absent, defer a modify event, and queue
the (push) sync task. -/
def handleModifications (obj : SyncedObject) (arg : ModifyArg)
    (pending : PendingMap) (now : Nat) :
    Except SyncedObjectError (SyncedObject × PendingMap × List Deferred) :=
  if modificationErrors obj (argProperty arg) ≠ [] then
    .error ⟨"Failed to modify due to invalid params", obj.key, "modify"⟩
  else
    .ok (changelogPush obj (argProperty arg),
         queueSyncTask pending obj.key now (effDebounce obj arg) "push",
         [Deferred.modifyNotify obj.key])

/-- What a modify call produces: the updated object and pending map, the
deferred tasks, a possible floating-promise rejection, and the returned
data field. -/
structure ModifyResult where
  obj : SyncedObject
  pending : PendingMap
  deferred : List Deferred
  rejection : Option SyncedObjectError
  ret : Value

/-- The modify member method. It resets callerId, fires handleModifications
and returns the data field. handleModifications is async and not awaited in
the source, so a validation failure only rejects the floating promise
(recorded in rejection) while modify still returns data. A deleted object
has its modify method replaced by a throwing function (the deleted flag). -/
def SyncedObject.modify (obj : SyncedObject) (arg : ModifyArg)
    (pending : PendingMap) (now : Nat) :
    Except SyncedObjectError ModifyResult :=
  if obj.deleted then
    .error ⟨"Synced Object Modification: object has been deleted",
            obj.key, "deleteSyncedObject"⟩
  else
    match handleModifications { obj with callerId := none } arg pending now with
    | .error e => .ok ⟨{ obj with callerId := none }, pending, [], some e, obj.data⟩
    | .ok (obj1, pending1, defs) => .ok ⟨obj1, pending1, defs, none, obj1.data⟩

/-- The modify wrapper returned by useSyncedObject: returns undefined when
the hook holds no object, otherwise tags callerId with the component id,
fires handleModifications and returns the data field. -/
def hookModify (syncedObject : Option SyncedObject) (componentId : Nat)
    (arg : ModifyArg) (pending : PendingMap) (now : Nat) : Option ModifyResult :=
  match syncedObject with
  | none => none
  | some obj =>
    match handleModifications { obj with callerId := some componentId } arg pending now with
    | .error e => some ⟨{ obj with callerId := some componentId }, pending, [],
                        some e, obj.data⟩
    | .ok (obj1, pending1, defs) => some ⟨obj1, pending1, defs, none, obj1.data⟩

/-- The static state of SyncedObjectManager. -/
structure ManagerState where
  localStorage : LocalStore
  syncedObjects : List (String × SyncedObject)
  pendingSyncTasks : PendingMap
  now : Nat

/-- Development default of the safe-mode flag. -/
def globalSafeMode : Bool := true

/-- The options argument of the factory. The customSyncFunctions and
callbackFunctions sub-objects are flattened into their four members. -/
structure InitOptions where
  defaultValue : Option Value := none
  debounceTime : Option Nat := none
  reloadBehavior : Option String := none
  pullFn : Option (Value → Except String Value) := none
  pushFn : Option (Value → Except String Unit) := none
  onSuccess : Bool := false
  onError : Bool := false
  safeMode : Option Bool := none

/-- The initialization branch of validateInput. The source checks on
debounceTime and on hook callability can never fire (a Nat debounce is
never negative, and the negated typeof comparisons are constant), leaving
the key, type and reloadBehavior checks. Safe mode off skips everything. -/
def initializationErrors (safeMode : Bool) (key type reloadBehavior : String) :
    List String :=
  if safeMode = false then []
  else
    (if key = "" ∨ type = "" then ["missing parameters key or type"]
     else if type ≠ "temp" ∧ type ≠ "local" ∧ type ≠ "custom" then
       ["parameter type must be either temp, local, or custom"]
     else []) ++
    (if reloadBehavior ≠ "" ∧ reloadBehavior ≠ "prevent" ∧
        reloadBehavior ≠ "allow" ∧ reloadBehavior ≠ "finish" then
       ["parameter reloadBehavior must be either prevent, allow, or finish"]
     else [])

/-- The factory initializeSyncedObject: an existing key short-circuits to
the stored instance before any option parsing, validation, construction or
initial pull; otherwise the entity is built, validated, stored, and an
immediate (delay 0) pull task is queued. -/
def initSyncedObject (s : ManagerState) (key type : String)
    (options : Option InitOptions) :
    Except SyncedObjectError (ManagerState × SyncedObject) :=
  match lookupA s.syncedObjects key with
  | some existing => .ok (s, existing)
  | none =>
    let opts := options.getD {}
    let defaultValue := opts.defaultValue.getD (Value.objV [])
    let debounceTime := opts.debounceTime.getD 0
    let reloadBehavior := opts.reloadBehavior.getD "prevent"
    let safeMode := opts.safeMode.getD globalSafeMode
    if initializationErrors safeMode key type reloadBehavior ≠ [] then
      .error ⟨"Failed to initialize synced object", key, "initSyncedObject"⟩
    else
      let obj : SyncedObject :=
        { key := key, type := type, data := defaultValue, changelog := [],
          debounceTime := debounceTime, reloadBehavior := reloadBehavior,
          safeMode := safeMode, callerId := none,
          pull := opts.pullFn, push := opts.pushFn,
          onSuccess := opts.onSuccess, onError := opts.onError,
          state := ⟨if type = "temp" then some true else none, none⟩,
          deleted := false }
      .ok ({ s with syncedObjects := setA s.syncedObjects key obj,
                    pendingSyncTasks :=
                      queueSyncTask s.pendingSyncTasks key s.now 0 "pull" },
           obj)

/-- deleteSyncedObject: remove the entity from the registry, cancel any
pending task for the key, replace modify on the stale instance with a
throwing function, and defer the delete notification to the next tick. -/
def deleteSyncedObject (s : ManagerState) (key : String) :
    ManagerState × Option SyncedObject × List Deferred :=
  match lookupA s.syncedObjects key with
  | none => (s, none, [])
  | some obj =>
    ({ s with syncedObjects := eraseA s.syncedObjects key,
              pendingSyncTasks := eraseA s.pendingSyncTasks key },
     some { obj with deleted := true },
     [Deferred.deleteNotify key])

/-- Steps observable inside the timer expiry handler of queueSyncTask. -/
inductive FireEv where
  | syncResolved : SyncOutcome → FireEv
  | pendingRemoved : String → FireEv
deriving Repr, DecidableEq

/-- Whether a fire event is the removal of the pending record. -/
def FireEv.isRemoved : FireEv → Bool
  | .pendingRemoved _ => true
  | _ => false

/-- Whether a fire event is the resolution of the sync executor. -/
def FireEv.isResolved : FireEv → Bool
  | .syncResolved _ => true
  | _ => false

/-- The timer expiry handler of queueSyncTask: a timer can only fire while
its record is in the pending map (cancellation removes the record and
clears the timer together). The handler awaits forceSyncTask and then
deletes the pending record; the trace records that order. -/
def fireSyncTask (s : ManagerState) (key : String) : ManagerState × List FireEv :=
  match lookupA s.pendingSyncTasks key, lookupA s.syncedObjects key with
  | some task, some obj =>
    let r := forceSyncTask s.localStorage obj task.requestType
    ({ s with localStorage := r.localStorage,
              syncedObjects := setA s.syncedObjects key r.obj,
              pendingSyncTasks := eraseA s.pendingSyncTasks key },
     [FireEv.syncResolved r.outcome, FireEv.pendingRemoved key])
  | _, _ => (s, [])

/-- The trace property claimed of the expiry handler: the pending record is
removed strictly before the executor resolves. -/
def removedBeforeResolved (tr : List FireEv) : Bool :=
  match tr.findIdx? FireEv.isRemoved, tr.findIdx? FireEv.isResolved with
  | some i, some j => decide (i < j)
  | _, _ => false

/-- Patterns accepted by the local-storage utilities: an exact string, or a
regular expression modelled by its test predicate on keys. -/
inductive KeyPattern where
  | strPat : String → KeyPattern
  | regexPat : (String → Bool) → KeyPattern

/-- The keys of local storage matched by a pattern: a non-empty string
matches itself when present, a regular expression filters the key list. -/
def matchingKeysIn (ls : LocalStore) : KeyPattern → List String
  | .strPat p => if p ≠ "" ∧ (ls.map Prod.fst).contains p then [p] else []
  | .regexPat test => (ls.map Prod.fst).filter test

/-- findInLocalStorage restricted to returnType key: validation plus
matchingKeysIn. An empty string pattern is rejected. -/
def findInLocalStorageKeys (ls : LocalStore) (keyPattern : KeyPattern) :
    Except SyncedObjectError (List String) :=
  match keyPattern with
  | .strPat p =>
    if p = "" then
      .error ⟨"keyPattern must be a non-empty string or a RegExp",
              "", "findInLocalStorage"⟩
    else .ok (matchingKeysIn ls (.strPat p))
  | .regexPat t => .ok (matchingKeysIn ls (.regexPat t))

/-- Remove each listed key from the store in order. -/
def removeKeysFromStore (ls : LocalStore) : List String → LocalStore
  | [] => ls
  | k :: ks => removeKeysFromStore (eraseA ls k) ks

/-- Decouple policy: each matched key still registered turns into a temp
object in place. -/
def decoupleObjects (objs : List (String × SyncedObject)) :
    List String → List (String × SyncedObject)
  | [] => objs
  | k :: ks =>
    let objs1 :=
      match lookupA objs k with
      | some o => setA objs k { o with type := "temp" }
      | none => objs
    decoupleObjects objs1 ks

/-- Delete policy: run deleteSyncedObject on each matched key, collecting
the deferred delete notifications. -/
def deleteObjectsByKeys (s : ManagerState) : List String → ManagerState × List Deferred
  | [] => (s, [])
  | k :: ks =>
    let r := deleteSyncedObject s k
    let rest := deleteObjectsByKeys r.1 ks
    (rest.1, r.2.2 ++ rest.2)

/-- removeFromLocalStorage: validate the policy, find the matched keys,
remove their slots, then apply the affected-objects policy. Returns the
matched keys. -/
def removeFromLocalStorage (s : ManagerState) (keyPattern : KeyPattern)
    (affectedObjects : String) :
    Except SyncedObjectError (ManagerState × List String × List Deferred) :=
  if affectedObjects ≠ "decouple" ∧ affectedObjects ≠ "delete" ∧
     affectedObjects ≠ "ignore" then
    .error ⟨"affectedObjects must be decouple, delete, or ignore",
            "", "removeFromLocalStorage"⟩
  else
    match findInLocalStorageKeys s.localStorage keyPattern with
    | .error e => .error e
    | .ok matchingKeys =>
      let s1 := { s with localStorage := removeKeysFromStore s.localStorage matchingKeys }
      if affectedObjects = "ignore" then .ok (s1, matchingKeys, [])
      else if affectedObjects = "decouple" then
        .ok ({ s1 with syncedObjects := decoupleObjects s1.syncedObjects matchingKeys },
             matchingKeys, [])
      else
        let r := deleteObjectsByKeys s1 matchingKeys
        .ok (r.1, matchingKeys, r.2)

/-- One modify call in a coalescing sequence: its arguments and the logical
time at which it is issued. -/
structure ModCall where
  arg : ModifyArg
  time : Nat

/-- Run a sequence of modify calls on one object, failing if any call
throws (deleted object) or its floating validation promise rejects. -/
def runModifies (obj : SyncedObject) (pending : PendingMap) :
    List ModCall → Except SyncedObjectError (SyncedObject × PendingMap)
  | [] => .ok (obj, pending)
  | c :: cs =>
    match SyncedObject.modify obj c.arg pending c.time with
    | .error e => .error e
    | .ok r =>
      match r.rejection with
      | some e => .error e
      | none => runModifies r.obj r.pending cs

/- Association-list map lemmas. -/

theorem lookupA_eraseA_self {α : Type} (l : List (String × α)) (k : String) :
    lookupA (eraseA l k) k = none := by
  unfold lookupA eraseA
  rw [List.find?_eq_none.mpr]
  · rfl
  · intro e he
    have h2 := (List.mem_filter.mp he).2
    simp only [bne_iff_ne, ne_eq] at h2
    simp [h2]

theorem find?_key_filter_ne {α : Type} (l : List (String × α)) (k k2 : String)
    (h : k2 ≠ k) :
    (l.filter (fun e => e.1 != k)).find? (fun e => e.1 == k2) =
      l.find? (fun e => e.1 == k2) := by
  induction l with
  | nil => rfl
  | cons e t ih =>
    rw [List.filter_cons]
    by_cases he : e.1 = k
    · have h2 : (e.1 != k) = false := by simp [he]
      have h3 : (e.1 == k2) = false := by
        simp only [beq_eq_false_iff_ne, ne_eq, he]
        exact Ne.symm h
      rw [h2]
      simp only [Bool.false_eq_true, if_false]
      simp only [List.find?, h3]
      exact ih
    · have h2 : (e.1 != k) = true := by simp [he]
      rw [h2, if_pos rfl]
      simp only [List.find?]
      by_cases he2 : e.1 = k2
      · simp [he2]
      · have h3 : (e.1 == k2) = false := by simp [he2]
        simp only [h3]
        exact ih

theorem lookupA_eraseA_ne {α : Type} (l : List (String × α)) (k k2 : String)
    (h : k2 ≠ k) : lookupA (eraseA l k) k2 = lookupA l k2 := by
  unfold lookupA eraseA
  rw [find?_key_filter_ne l k k2 h]

theorem lookupA_setA_self {α : Type} (l : List (String × α)) (k : String) (v : α) :
    lookupA (setA l k v) k = some v := by
  simp [lookupA, setA, List.find?]

theorem lookupA_setA_ne {α : Type} (l : List (String × α)) (k k2 : String) (v : α)
    (h : k2 ≠ k) : lookupA (setA l k v) k2 = lookupA l k2 := by
  have step : lookupA (setA l k v) k2 = lookupA (eraseA l k) k2 := by
    unfold lookupA setA
    rw [List.find?_cons_of_neg _ (by simp only [beq_iff_eq]; exact fun hh => h hh.symm)]
  rw [step, lookupA_eraseA_ne l k k2 h]

theorem countKey_setA_self {α : Type} (l : List (String × α)) (k : String) (v : α) :
    countKey (setA l k v) k = 1 := by
  have hnil : (eraseA l k).filter (fun e => e.1 == k) = [] := by
    refine List.filter_eq_nil_iff.mpr ?_
    intro e he
    have hmem : e ∈ l ∧ ¬ e.1 = k := by
      simpa [eraseA, List.mem_filter] using he
    simp [hmem.2]
  simp [countKey, setA, List.filter_cons, hnil]

theorem keysNodup_setA {α : Type} (l : List (String × α)) (k : String) (v : α)
    (h : keysNodup l) : keysNodup (setA l k v) := by
  unfold keysNodup setA eraseA at *
  simp only [List.map_cons, List.nodup_cons]
  constructor
  · intro hmem
    obtain ⟨e, he, hfst⟩ := List.mem_map.mp hmem
    have h2 := (List.mem_filter.mp he).2
    simp only [bne_iff_ne, ne_eq] at h2
    exact h2 hfst
  · exact ((List.filter_sublist l).map Prod.fst).nodup h

theorem countKey_le_one_of_nodup {α : Type} (l : List (String × α)) (k : String)
    (h : keysNodup l) : countKey l k ≤ 1 := by
  induction l with
  | nil => simp [countKey]
  | cons e t ih =>
    unfold keysNodup at h
    simp only [List.map_cons, List.nodup_cons] at h
    have iht := ih h.2
    by_cases he : e.1 = k
    · have hnil : t.filter (fun x => x.1 == k) = [] := by
        refine List.filter_eq_nil_iff.mpr ?_
        intro x hx hbeq
        have hxk : x.1 = k := by simpa using hbeq
        exact h.1 (List.mem_map.mpr ⟨x, hx, by simp [hxk, he]⟩)
      simp [countKey, List.filter_cons, he, hnil]
    · have hstep : countKey (e :: t) k = countKey t k := by
        simp [countKey, List.filter_cons, he]
      rw [hstep]
      exact iht

/- handleCallBacks lemmas. -/

theorem handleCallBacks_temp (obj : SyncedObject) (st : SyncOutcome)
    (h : obj.type = "temp") :
    handleCallBacks obj st =
      ({ obj with changelog := [], callerId := none,
                  state := ⟨some true, obj.state.error⟩ }, []) := by
  simp [handleCallBacks, h]

theorem handleCallBacks_fst_nontemp (obj : SyncedObject) (st : SyncOutcome)
    (h : ¬ obj.type = "temp") :
    (handleCallBacks obj st).1 =
      { obj with state := ⟨st.success, st.error⟩,
                 changelog := if st.success == some true then [] else obj.changelog,
                 callerId := none } := by
  simp only [handleCallBacks, h, if_false, updateComponents]
  split <;> rfl

theorem handleCallBacks_snd_nontemp (obj : SyncedObject) (st : SyncOutcome)
    (h : ¬ obj.type = "temp") :
    (handleCallBacks obj st).2 =
      (if st.success == some true && obj.onSuccess then [SyncEv.cbSuccess obj.key]
       else []) ++
      (if st.error.isSome && obj.onError then [SyncEv.cbError obj.key] else []) ++
      [SyncEv.notify ⟨obj.key, obj.changelog, st.requestType, obj.callerId⟩] := by
  simp only [handleCallBacks, h, if_false, updateComponents]

theorem handleCallBacks_fst_callerId (obj : SyncedObject) (st : SyncOutcome) :
    (handleCallBacks obj st).1.callerId = none := by
  by_cases h : obj.type = "temp"
  · rw [handleCallBacks_temp obj st h]
  · rw [handleCallBacks_fst_nontemp obj st h]

theorem handleCallBacks_fst_data (obj : SyncedObject) (st : SyncOutcome) :
    (handleCallBacks obj st).1.data = obj.data := by
  by_cases h : obj.type = "temp"
  · rw [handleCallBacks_temp obj st h]
  · rw [handleCallBacks_fst_nontemp obj st h]

theorem handleCallBacks_snd_no_lsWrite (obj : SyncedObject) (st : SyncOutcome) :
    (handleCallBacks obj st).2.filter SyncEv.isLsWrite = [] := by
  by_cases h : obj.type = "temp"
  · rw [handleCallBacks_temp obj st h]
    rfl
  · rw [handleCallBacks_snd_nontemp obj st h]
    simp only [List.filter_append]
    split <;> split <;> simp [SyncEv.isLsWrite]

theorem handleCallBacks_snd_no_hookPush (obj : SyncedObject) (st : SyncOutcome) :
    (handleCallBacks obj st).2.filter SyncEv.isHookPush = [] := by
  by_cases h : obj.type = "temp"
  · rw [handleCallBacks_temp obj st h]
    rfl
  · rw [handleCallBacks_snd_nontemp obj st h]
    simp only [List.filter_append]
    split <;> split <;> simp [SyncEv.isHookPush]

theorem handleCallBacks_snd_notify_nontemp (obj : SyncedObject) (st : SyncOutcome)
    (h : ¬ obj.type = "temp") :
    (handleCallBacks obj st).2.filter SyncEv.isNotify =
      [SyncEv.notify ⟨obj.key, obj.changelog, st.requestType, obj.callerId⟩] := by
  rw [handleCallBacks_snd_nontemp obj st h]
  simp only [List.filter_append]
  split <;> split <;> simp [SyncEv.isNotify]

/- syncTry lemmas. -/

theorem syncTry_other (ls : LocalStore) (obj : SyncedObject) (rt : String)
    (h1 : ¬ obj.type = "local") (h2 : ¬ obj.type = "custom") :
    syncTry ls obj rt = .ok (ls, obj, []) := by
  simp [syncTry, h1, h2]

theorem syncTry_error_custom {ls : LocalStore} {obj : SyncedObject} {rt : String}
    {e : String} (h : syncTry ls obj rt = .error e) : obj.type = "custom" := by
  by_cases h2 : obj.type = "custom"
  · exact h2
  · exfalso
    by_cases h1 : obj.type = "local"
    · simp only [syncTry, h1, if_true] at h
      split at h
      · exact Except.noConfusion h
      · split at h
        · unfold pullFromLocal at h
          split at h
          · exact Except.noConfusion h
          · exact Except.noConfusion h
        · exact Except.noConfusion h
    · rw [syncTry_other ls obj rt h1 h2] at h
      exact Except.noConfusion h

theorem pushToCustom_ok_fields {obj o : SyncedObject} {evs : List SyncEv}
    (h : pushToCustom obj = .ok (o, evs)) :
    o = obj ∧ evs.filter SyncEv.isNotify = [] := by
  unfold pushToCustom at h
  split at h
  · simp only [Except.ok.injEq, Prod.mk.injEq] at h
    obtain ⟨h1, h2⟩ := h
    subst h1; subst h2
    simp
  · split at h
    · simp only [Except.ok.injEq, Prod.mk.injEq] at h
      obtain ⟨h1, h2⟩ := h
      subst h1; subst h2
      simp [SyncEv.isNotify]
    · exact Except.noConfusion h

theorem pullFromCustom_ok_fields {obj o : SyncedObject} {evs : List SyncEv}
    (h : pullFromCustom obj = .ok (o, evs)) :
    o.key = obj.key ∧ o.type = obj.type ∧ o.changelog = obj.changelog ∧
    o.callerId = obj.callerId ∧ o.state = obj.state ∧
    o.onSuccess = obj.onSuccess ∧ o.onError = obj.onError ∧
    o.debounceTime = obj.debounceTime ∧
    evs.filter SyncEv.isNotify = [] := by
  unfold pullFromCustom at h
  split at h
  · simp only [Except.ok.injEq, Prod.mk.injEq] at h
    obtain ⟨h1, h2⟩ := h
    subst h1; subst h2
    simp
  · split at h
    · exact Except.noConfusion h
    · split at h
      · simp only [Except.ok.injEq, Prod.mk.injEq] at h
        obtain ⟨h1, h2⟩ := h
        subst h1; subst h2
        simp [SyncEv.isNotify]
      · split at h
        · rename_i o2 evs2 heq
          obtain ⟨ho, hevs⟩ := pushToCustom_ok_fields heq
          simp only [Except.ok.injEq, Prod.mk.injEq] at h
          obtain ⟨h1, h2⟩ := h
          subst h1; subst h2; subst ho
          simp [SyncEv.isNotify, hevs]
        · exact Except.noConfusion h

theorem syncTry_ok_fields {ls : LocalStore} {obj : SyncedObject} {rt : String}
    {ls1 : LocalStore} {obj1 : SyncedObject} {evs : List SyncEv}
    (h : syncTry ls obj rt = .ok (ls1, obj1, evs)) :
    obj1.key = obj.key ∧ obj1.type = obj.type ∧ obj1.changelog = obj.changelog ∧
    obj1.callerId = obj.callerId ∧ obj1.state = obj.state ∧
    obj1.onSuccess = obj.onSuccess ∧ obj1.onError = obj.onError ∧
    obj1.debounceTime = obj.debounceTime ∧
    evs.filter SyncEv.isNotify = [] := by
  unfold syncTry at h
  split at h
  · -- local
    split at h
    · simp only [pushToLocal, Except.ok.injEq, Prod.mk.injEq] at h
      obtain ⟨h1, h2, h3⟩ := h
      subst h2; subst h3
      simp [SyncEv.isNotify]
    · split at h
      · unfold pullFromLocal at h
        split at h
        · simp only [Except.ok.injEq, Prod.mk.injEq] at h
          obtain ⟨h1, h2, h3⟩ := h
          subst h2; subst h3
          simp
        · simp only [pushToLocal, Except.ok.injEq, Prod.mk.injEq] at h
          obtain ⟨h1, h2, h3⟩ := h
          subst h2; subst h3
          simp [SyncEv.isNotify]
      · simp only [Except.ok.injEq, Prod.mk.injEq] at h
        obtain ⟨h1, h2, h3⟩ := h
        subst h2; subst h3
        simp
  · split at h
    · -- custom
      split at h
      · -- push
        split at h
        · rename_i o2 evs2 heq
          obtain ⟨ho, hevs⟩ := pushToCustom_ok_fields heq
          simp only [Except.ok.injEq, Prod.mk.injEq] at h
          obtain ⟨h1, h2, h3⟩ := h
          subst h2; subst h3; subst ho
          simp [hevs]
        · exact Except.noConfusion h
      · split at h
        · -- pull
          split at h
          · rename_i o2 evs2 heq
            have hf := pullFromCustom_ok_fields heq
            simp only [Except.ok.injEq, Prod.mk.injEq] at h
            obtain ⟨h1, h2, h3⟩ := h
            subst h2; subst h3
            exact hf
          · exact Except.noConfusion h
        · simp only [Except.ok.injEq, Prod.mk.injEq] at h
          obtain ⟨h1, h2, h3⟩ := h
          subst h2; subst h3
          simp
    · simp only [Except.ok.injEq, Prod.mk.injEq] at h
      obtain ⟨h1, h2, h3⟩ := h
      subst h2; subst h3
      simp

/- forceSyncTask case lemmas. -/

theorem forceSyncTask_error {ls : LocalStore} {obj : SyncedObject} {rt e : String}
    (h : syncTry ls obj rt = .error e) :
    forceSyncTask ls obj rt =
      ⟨ls, (handleCallBacks obj ⟨rt, some false, some e⟩).1,
       ⟨rt, some false, some e⟩,
       (handleCallBacks obj ⟨rt, some false, some e⟩).2⟩ := by
  simp [forceSyncTask, h]

theorem forceSyncTask_ok {ls : LocalStore} {obj : SyncedObject} {rt : String}
    {ls1 : LocalStore} {obj1 : SyncedObject} {evs0 : List SyncEv}
    (h : syncTry ls obj rt = .ok (ls1, obj1, evs0)) :
    forceSyncTask ls obj rt =
      ⟨ls1, (handleCallBacks obj1 ⟨rt, some true, none⟩).1,
       ⟨rt, some true, none⟩,
       evs0 ++ (handleCallBacks obj1 ⟨rt, some true, none⟩).2⟩ := by
  simp [forceSyncTask, h]

/- Reductions of the custom hooks under explicit hypotheses. -/

theorem pushToCustom_throw {obj : SyncedObject}
    {g : Value → Except String Unit} {e : String}
    (hg : obj.push = some g) (hge : g obj.data = .error e) :
    pushToCustom obj = .error e := by
  simp [pushToCustom, hg, hge]

theorem pullFromCustom_throw {obj : SyncedObject}
    {f : Value → Except String Value} {e : String}
    (hf : obj.pull = some f) (he : f obj.data = .error e) :
    pullFromCustom obj = .error e := by
  simp [pullFromCustom, hf, he]

theorem pullFromCustom_falsy_throw {obj : SyncedObject}
    {f : Value → Except String Value} {g : Value → Except String Unit}
    {r : Value} {e : String}
    (hf : obj.pull = some f) (hr : f obj.data = .ok r) (ht : r.truthy = false)
    (hg : obj.push = some g) (hge : g obj.data = .error e) :
    pullFromCustom obj = .error e := by
  simp [pullFromCustom, pushToCustom, hf, hr, ht, hg, hge]

theorem syncTry_custom_pull {ls : LocalStore} {obj : SyncedObject}
    (htype : obj.type = "custom") {e : String}
    (h : pullFromCustom obj = .error e) :
    syncTry ls obj "pull" = .error e := by
  simp [syncTry, htype, h]

theorem syncTry_custom_push {ls : LocalStore} {obj : SyncedObject}
    (htype : obj.type = "custom") {e : String}
    (h : pushToCustom obj = .error e) :
    syncTry ls obj "push" = .error e := by
  simp [syncTry, htype, h]

/-- C2: for every sync attempt on a tracked object, a successful attempt
leaves the changelog empty and a failed attempt leaves the changelog
exactly as it was before the attempt. -/
theorem c2_changelog_success_failure (ls : LocalStore) (obj : SyncedObject)
    (rt : String) :
    ((forceSyncTask ls obj rt).outcome.success = some true →
      (forceSyncTask ls obj rt).obj.changelog = []) ∧
    ((forceSyncTask ls obj rt).outcome.success = some false →
      (forceSyncTask ls obj rt).obj.changelog = obj.changelog) := by
  rcases hs : syncTry ls obj rt with e | ⟨ls1, obj1, evs0⟩
  · have hcustom := syncTry_error_custom hs
    have hnt : ¬ obj.type = "temp" := by rw [hcustom]; decide
    rw [forceSyncTask_error hs]
    constructor
    · intro hc
      exact absurd hc (by simp)
    · intro _
      rw [handleCallBacks_fst_nontemp obj _ hnt]
      simp
  · rw [forceSyncTask_ok hs]
    have hcl := (syncTry_ok_fields hs).2.2.1
    constructor
    · intro _
      by_cases ht : obj1.type = "temp"
      · rw [handleCallBacks_temp _ _ ht]
      · rw [handleCallBacks_fst_nontemp _ _ ht]
        simp
    · intro hc
      exact absurd hc (by simp)

/-- Concrete object used to exercise the C2 failure branch. -/
def c2obj : SyncedObject :=
  { key := "k2", type := "custom", data := Value.objV [], changelog := ["a"],
    debounceTime := 0, reloadBehavior := "prevent", safeMode := true,
    callerId := none, pull := some (fun _ => Except.error "boom") }

theorem c2_changelog_success_failure_witness :
    (forceSyncTask [] c2obj "pull").obj.changelog = ["a"] :=
  (c2_changelog_success_failure [] c2obj "pull").2 rfl

/-- C3: an exception raised inside a caller-supplied pull or push hook is
caught at the executor boundary: the attempt completes with outcome
requestType, success false and the raised error, the error is recorded on
the object state, local storage is untouched, the changelog is retained,
and the onError callback is invoked when present. -/
theorem c3_hook_exception_absorbed (ls : LocalStore) (obj : SyncedObject)
    (rt e : String) (htype : obj.type = "custom")
    (hthrow :
      (rt = "pull" ∧ ∃ f, obj.pull = some f ∧ f obj.data = .error e) ∨
      (rt = "push" ∧ ∃ g, obj.push = some g ∧ g obj.data = .error e) ∨
      (rt = "pull" ∧ ∃ f r g, obj.pull = some f ∧ f obj.data = .ok r ∧
        r.truthy = false ∧ obj.push = some g ∧ g obj.data = .error e)) :
    (forceSyncTask ls obj rt).outcome = ⟨rt, some false, some e⟩ ∧
    (forceSyncTask ls obj rt).obj.state = ⟨some false, some e⟩ ∧
    (forceSyncTask ls obj rt).localStorage = ls ∧
    (forceSyncTask ls obj rt).obj.changelog = obj.changelog ∧
    (obj.onError = true →
      SyncEv.cbError obj.key ∈ (forceSyncTask ls obj rt).events) := by
  have hnt : ¬ obj.type = "temp" := by rw [htype]; decide
  have hserr : syncTry ls obj rt = .error e := by
    rcases hthrow with ⟨hrt, f, hf, he⟩ | ⟨hrt, g, hg, hge⟩ | ⟨hrt, f, r, g, hf, hr, ht, hg, hge⟩
    · subst hrt
      exact syncTry_custom_pull htype (pullFromCustom_throw hf he)
    · subst hrt
      exact syncTry_custom_push htype (pushToCustom_throw hg hge)
    · subst hrt
      exact syncTry_custom_pull htype (pullFromCustom_falsy_throw hf hr ht hg hge)
  rw [forceSyncTask_error hserr]
  refine ⟨rfl, ?_, rfl, ?_, ?_⟩
  · rw [handleCallBacks_fst_nontemp obj _ hnt]
  · rw [handleCallBacks_fst_nontemp obj _ hnt]
    simp
  · intro hOE
    rw [handleCallBacks_snd_nontemp obj _ hnt]
    simp [hOE]

/-- Concrete object used to exercise C3: a custom object whose pull hook
raises, with an onError callback registered. -/
def c3obj : SyncedObject :=
  { key := "k3", type := "custom", data := Value.objV [], changelog := ["x"],
    debounceTime := 0, reloadBehavior := "prevent", safeMode := true,
    callerId := none, pull := some (fun _ => Except.error "bang"),
    onError := true }

theorem c3_hook_exception_absorbed_witness :
    SyncEv.cbError "k3" ∈ (forceSyncTask [] c3obj "pull").events ∧
    (forceSyncTask [] c3obj "pull").obj.state = ⟨some false, some "bang"⟩ :=
  ⟨(c3_hook_exception_absorbed [] c3obj "pull" "bang" rfl
      (Or.inl ⟨rfl, _, rfl, rfl⟩)).2.2.2.2 rfl,
   (c3_hook_exception_absorbed [] c3obj "pull" "bang" rfl
      (Or.inl ⟨rfl, _, rfl, rfl⟩)).2.1⟩

/- syncTry reductions for the local and custom pull paths. -/

theorem syncTry_local_pull_absent {ls : LocalStore} {obj : SyncedObject}
    (htype : obj.type = "local") (ha : lookupA ls obj.key = none) :
    syncTry ls obj "pull" =
      .ok (setA ls obj.key obj.data, obj, [SyncEv.lsWrite obj.key]) := by
  simp [syncTry, htype, pullFromLocal, pushToLocal, ha]

theorem syncTry_local_pull_present {ls : LocalStore} {obj : SyncedObject}
    (htype : obj.type = "local") (v : Value) (ha : lookupA ls obj.key = some v) :
    syncTry ls obj "pull" = .ok (ls, { obj with data := v }, []) := by
  simp [syncTry, htype, pullFromLocal, ha]

theorem pullFromCustom_truthy {obj : SyncedObject}
    {f : Value → Except String Value} {r : Value}
    (hf : obj.pull = some f) (hr : f obj.data = .ok r) (ht : r.truthy = true) :
    pullFromCustom obj = .ok ({ obj with data := r }, [SyncEv.hookPullCall obj.key]) := by
  simp [pullFromCustom, hf, hr, ht]

theorem pullFromCustom_falsy_push_ok {obj : SyncedObject}
    {f : Value → Except String Value} {g : Value → Except String Unit} {r : Value}
    (hf : obj.pull = some f) (hr : f obj.data = .ok r) (ht : r.truthy = false)
    (hg : obj.push = some g) (hge : g obj.data = .ok ()) :
    pullFromCustom obj =
      .ok (obj, [SyncEv.hookPullCall obj.key, SyncEv.hookPushCall obj.key]) := by
  simp [pullFromCustom, pushToCustom, hf, hr, ht, hg, hge]

theorem syncTry_custom_pull_ok {ls : LocalStore} {obj o : SyncedObject}
    {evs : List SyncEv} (htype : obj.type = "custom")
    (h : pullFromCustom obj = .ok (o, evs)) :
    syncTry ls obj "pull" = .ok (ls, o, evs) := by
  simp [syncTry, htype, h]

/-- C7 (amended): a pull on a durable (local) object with an absent slot
performs exactly one fallback push of the current data and ends in success,
while a present slot replaces data wholesale with no push; a pull on a
custom object whose pull hook returns a truthy value replaces data with no
fallback push, and a falsy pull response invokes the push path exactly once
as fallback, ending in success provided the push hook is supplied and does
not raise. -/
theorem c7_bootstrap_pull (ls : LocalStore) (obj : SyncedObject) :
    (obj.type = "local" →
      (lookupA ls obj.key = none →
        (forceSyncTask ls obj "pull").localStorage = setA ls obj.key obj.data ∧
        (forceSyncTask ls obj "pull").obj.data = obj.data ∧
        ((forceSyncTask ls obj "pull").events.filter SyncEv.isLsWrite).length = 1 ∧
        (forceSyncTask ls obj "pull").obj.state.success = some true) ∧
      (∀ v, lookupA ls obj.key = some v →
        (forceSyncTask ls obj "pull").localStorage = ls ∧
        (forceSyncTask ls obj "pull").obj.data = v ∧
        ((forceSyncTask ls obj "pull").events.filter SyncEv.isLsWrite).length = 0 ∧
        (forceSyncTask ls obj "pull").obj.state.success = some true)) ∧
    (obj.type = "custom" →
      ∀ f, obj.pull = some f →
      (∀ r, f obj.data = .ok r → r.truthy = true →
        (forceSyncTask ls obj "pull").obj.data = r ∧
        ((forceSyncTask ls obj "pull").events.filter SyncEv.isHookPush).length = 0 ∧
        (forceSyncTask ls obj "pull").localStorage = ls ∧
        (forceSyncTask ls obj "pull").obj.state.success = some true) ∧
      (∀ r g, f obj.data = .ok r → r.truthy = false → obj.push = some g →
        g obj.data = .ok () →
        ((forceSyncTask ls obj "pull").events.filter SyncEv.isHookPush).length = 1 ∧
        (forceSyncTask ls obj "pull").obj.data = obj.data ∧
        (forceSyncTask ls obj "pull").localStorage = ls ∧
        (forceSyncTask ls obj "pull").obj.state.success = some true)) := by
  constructor
  · intro htype
    have hnt : ¬ obj.type = "temp" := by rw [htype]; decide
    constructor
    · intro ha
      rw [forceSyncTask_ok (syncTry_local_pull_absent htype ha)]
      refine ⟨rfl, ?_, ?_, ?_⟩
      · rw [handleCallBacks_fst_data]
      · simp [List.filter_append, handleCallBacks_snd_no_lsWrite, SyncEv.isLsWrite]
      · rw [handleCallBacks_fst_nontemp _ _ hnt]
    · intro v ha
      rw [forceSyncTask_ok (syncTry_local_pull_present htype v ha)]
      refine ⟨rfl, ?_, ?_, ?_⟩
      · rw [handleCallBacks_fst_data]
      · simp [List.filter_append, handleCallBacks_snd_no_lsWrite]
      · have hnt2 : ¬ ({ obj with data := v } : SyncedObject).type = "temp" := hnt
        rw [handleCallBacks_fst_nontemp _ _ hnt2]
  · intro htype f hf
    have hnt : ¬ obj.type = "temp" := by rw [htype]; decide
    constructor
    · intro r hr ht
      rw [forceSyncTask_ok (syncTry_custom_pull_ok htype (pullFromCustom_truthy hf hr ht))]
      refine ⟨?_, ?_, rfl, ?_⟩
      · rw [handleCallBacks_fst_data]
      · simp [List.filter_append, handleCallBacks_snd_no_hookPush, SyncEv.isHookPush]
      · have hnt2 : ¬ ({ obj with data := r } : SyncedObject).type = "temp" := hnt
        rw [handleCallBacks_fst_nontemp _ _ hnt2]
    · intro r g hr ht hg hge
      rw [forceSyncTask_ok
            (syncTry_custom_pull_ok htype (pullFromCustom_falsy_push_ok hf hr ht hg hge))]
      refine ⟨?_, ?_, rfl, ?_⟩
      · simp [List.filter_append, handleCallBacks_snd_no_hookPush, SyncEv.isHookPush]
      · rw [handleCallBacks_fst_data]
      · rw [handleCallBacks_fst_nontemp _ _ hnt]

/-- Concrete durable object for the C7 witness: bootstrap on an empty store. -/
def c7localObj : SyncedObject :=
  { key := "k7", type := "local", data := Value.objV [("x", Value.numV 1)],
    changelog := [], debounceTime := 0, reloadBehavior := "prevent",
    safeMode := true, callerId := none }

/-- Concrete custom object for the C7 witness: falsy pull, succeeding push. -/
def c7customObj : SyncedObject :=
  { key := "k7c", type := "custom", data := Value.objV [], changelog := [],
    debounceTime := 0, reloadBehavior := "prevent", safeMode := true,
    callerId := none, pull := some (fun _ => Except.ok Value.nullV),
    push := some (fun _ => Except.ok ()) }

theorem c7_bootstrap_pull_witness :
    ((forceSyncTask [] c7localObj "pull").localStorage =
      setA [] "k7" c7localObj.data ∧
     (forceSyncTask [] c7localObj "pull").obj.state.success = some true) ∧
    (((forceSyncTask [] c7customObj "pull").events.filter SyncEv.isHookPush).length = 1 ∧
     (forceSyncTask [] c7customObj "pull").obj.state.success = some true) :=
  ⟨⟨(((c7_bootstrap_pull [] c7localObj).1 rfl).1 rfl).1,
    (((c7_bootstrap_pull [] c7localObj).1 rfl).1 rfl).2.2.2⟩,
   ⟨((((c7_bootstrap_pull [] c7customObj).2 rfl) _ rfl).2 Value.nullV _ rfl rfl rfl rfl).1,
    ((((c7_bootstrap_pull [] c7customObj).2 rfl) _ rfl).2 Value.nullV _ rfl rfl rfl rfl).2.2.2⟩⟩

/-- Concrete custom object refuting C7 as stated: the pull hook returns a
falsy value, so the fallback push runs, but the push hook raises. -/
def c7badObj : SyncedObject :=
  { key := "k7b", type := "custom", data := Value.objV [], changelog := [],
    debounceTime := 0, reloadBehavior := "prevent", safeMode := true,
    callerId := none, pull := some (fun _ => Except.ok Value.nullV),
    push := some (fun _ => Except.error "boom") }

theorem c7_bootstrap_pull_counterexample :
    c7badObj.type = "custom" ∧
    (∃ f, c7badObj.pull = some f ∧ f c7badObj.data = .ok Value.nullV) ∧
    Value.nullV.truthy = false ∧
    (forceSyncTask [] c7badObj "pull").obj.state.success = some false ∧
    ¬ (forceSyncTask [] c7badObj "pull").obj.state.success = some true := by
  refine ⟨rfl, ⟨_, rfl, rfl⟩, rfl, rfl, ?_⟩
  intro hc
  rw [show (forceSyncTask [] c7badObj "pull").obj.state.success = some false from rfl] at hc
  exact Option.noConfusion hc (fun hb => Bool.noConfusion hb)

/-- C8 (amended): completion of a sync on a non-temp object records the
outcome success and error on the object state and emits exactly one event
whose detail carries the key, the pre-clear changelog snapshot, the
requestType and the last modifier id; the success and error themselves are
carried on the object state, not in the event payload. For a temp object no
event is emitted: completion clears the changelog and callerId and sets
state success to true, leaving the recorded error untouched. -/
theorem c8_completion_notification (ls : LocalStore) (obj : SyncedObject)
    (rt : String) :
    (¬ obj.type = "temp" →
      (forceSyncTask ls obj rt).events.filter SyncEv.isNotify =
        [SyncEv.notify ⟨obj.key, obj.changelog, rt, obj.callerId⟩] ∧
      (forceSyncTask ls obj rt).obj.state =
        ⟨(forceSyncTask ls obj rt).outcome.success,
         (forceSyncTask ls obj rt).outcome.error⟩ ∧
      (forceSyncTask ls obj rt).outcome.requestType = rt ∧
      (forceSyncTask ls obj rt).obj.callerId = none) ∧
    (obj.type = "temp" →
      (forceSyncTask ls obj rt).events = [] ∧
      (forceSyncTask ls obj rt).obj.state = ⟨some true, obj.state.error⟩ ∧
      (forceSyncTask ls obj rt).obj.changelog = [] ∧
      (forceSyncTask ls obj rt).obj.callerId = none) := by
  constructor
  · intro hnt
    rcases hs : syncTry ls obj rt with e | ⟨ls1, obj1, evs0⟩
    · rw [forceSyncTask_error hs]
      refine ⟨?_, ?_, rfl, handleCallBacks_fst_callerId _ _⟩
      · rw [handleCallBacks_snd_notify_nontemp obj _ hnt]
      · rw [handleCallBacks_fst_nontemp obj _ hnt]
    · have hfields := syncTry_ok_fields hs
      have hnt1 : ¬ obj1.type = "temp" := by rw [hfields.2.1]; exact hnt
      rw [forceSyncTask_ok hs]
      refine ⟨?_, ?_, rfl, handleCallBacks_fst_callerId _ _⟩
      · rw [List.filter_append, hfields.2.2.2.2.2.2.2.2,
            handleCallBacks_snd_notify_nontemp obj1 _ hnt1,
            hfields.1, hfields.2.2.1, hfields.2.2.2.1]
        rfl
      · rw [handleCallBacks_fst_nontemp obj1 _ hnt1]
  · intro ht
    have h1 : ¬ obj.type = "local" := by rw [ht]; decide
    have h2 : ¬ obj.type = "custom" := by rw [ht]; decide
    rw [forceSyncTask_ok (syncTry_other ls obj rt h1 h2)]
    rw [handleCallBacks_temp obj _ ht]
    exact ⟨rfl, rfl, rfl, rfl⟩

/-- Concrete temp object refuting C8 as stated: its sync completion emits
no event at all, where the claim demands exactly one per completion. -/
def c8tempObj : SyncedObject :=
  { key := "k8", type := "temp", data := Value.objV [], changelog := ["p"],
    debounceTime := 0, reloadBehavior := "prevent", safeMode := true,
    callerId := none }

theorem c8_completion_notification_counterexample :
    c8tempObj.type = "temp" ∧
    ((forceSyncTask [] c8tempObj "push").events.filter SyncEv.isNotify).length = 0 ∧
    ¬ ((forceSyncTask [] c8tempObj "push").events.filter SyncEv.isNotify).length = 1 := by
  refine ⟨rfl, rfl, ?_⟩
  intro hc
  rw [show ((forceSyncTask [] c8tempObj "push").events.filter SyncEv.isNotify).length = 0
        from rfl] at hc
  exact Nat.noConfusion hc

/-- Concrete failing custom object for the C8 witness. -/
def c8customObj : SyncedObject :=
  { key := "k8c", type := "custom", data := Value.objV [], changelog := ["q"],
    debounceTime := 0, reloadBehavior := "prevent", safeMode := true,
    callerId := some 7, pull := none,
    push := some (fun _ => Except.error "down") }

theorem c8_completion_notification_witness :
    (forceSyncTask [] c8customObj "push").events.filter SyncEv.isNotify =
      [SyncEv.notify ⟨"k8c", ["q"], "push", some 7⟩] ∧
    (forceSyncTask [] c8customObj "push").obj.state =
      ⟨some false, some "down"⟩ ∧
    (forceSyncTask [] c8tempObj "push").obj.state = ⟨some true, none⟩ :=
  ⟨((c8_completion_notification [] c8customObj "push").1 (by decide)).1,
   ((c8_completion_notification [] c8customObj "push").1 (by decide)).2.1,
   ((c8_completion_notification [] c8tempObj "push").2 rfl).2.1⟩

/-- Concrete manager state used for C4: one registered temp object with one
pending task. -/
def c4demoObj : SyncedObject :=
  { key := "d", type := "temp", data := Value.objV [], changelog := [],
    debounceTime := 0, reloadBehavior := "prevent", safeMode := true,
    callerId := none }

def c4demoState : ManagerState :=
  { localStorage := [], syncedObjects := [("d", c4demoObj)],
    pendingSyncTasks := [("d", ⟨3, "push"⟩)], now := 3 }

/-- C4 counterexample: at a state where a pending task and its object both
exist, the expiry handler resolves the executor first and removes the
pending record afterwards, so the claimed removed-before-resolved order is
false. -/
theorem c4_pending_cleared_counterexample :
    (lookupA c4demoState.pendingSyncTasks "d").isSome = true ∧
    (lookupA c4demoState.syncedObjects "d").isSome = true ∧
    removedBeforeResolved (fireSyncTask c4demoState "d").2 = false :=
  ⟨rfl, rfl, rfl⟩

/-- C4 (amended): when the timer of a scheduled sync task expires, the
executor resolves first and the pending record for the key is removed
immediately afterwards, within the same handler; since the executor absorbs
sync failures, the record is removed regardless of the outcome and no stale
pending entry remains. -/
theorem c4_pending_cleared_after_resolution (s : ManagerState) (key : String)
    (task : PendingTask) (obj : SyncedObject)
    (hp : lookupA s.pendingSyncTasks key = some task)
    (ho : lookupA s.syncedObjects key = some obj) :
    (fireSyncTask s key).2 =
      [FireEv.syncResolved (forceSyncTask s.localStorage obj task.requestType).outcome,
       FireEv.pendingRemoved key] ∧
    lookupA (fireSyncTask s key).1.pendingSyncTasks key = none := by
  unfold fireSyncTask
  rw [hp, ho]
  exact ⟨rfl, lookupA_eraseA_self _ _⟩

theorem c4_pending_cleared_after_resolution_witness :
    (fireSyncTask c4demoState "d").2 =
      [FireEv.syncResolved ⟨"push", some true, none⟩, FireEv.pendingRemoved "d"] ∧
    lookupA (fireSyncTask c4demoState "d").1.pendingSyncTasks "d" = none :=
  c4_pending_cleared_after_resolution c4demoState "d" ⟨3, "push"⟩ c4demoObj rfl rfl

/-- C5: calling the factory again with an existing key returns the stored
instance and leaves the whole manager state unchanged: the new type and
options are discarded, nothing is constructed, and no initial pull task is
queued. -/
theorem c5_factory_idempotent (s : ManagerState) (key type : String)
    (options : Option InitOptions) (obj : SyncedObject)
    (h : lookupA s.syncedObjects key = some obj) :
    initSyncedObject s key type options = .ok (s, obj) := by
  unfold initSyncedObject
  rw [h]

/-- Concrete registered object for the C5 witness. -/
def c5demoObj : SyncedObject :=
  { key := "k5", type := "local", data := Value.objV [("p", Value.numV 2)],
    changelog := [], debounceTime := 1000, reloadBehavior := "prevent",
    safeMode := true, callerId := none }

def c5demoState : ManagerState :=
  { localStorage := [], syncedObjects := [("k5", c5demoObj)],
    pendingSyncTasks := [], now := 0 }

theorem c5_factory_idempotent_witness :
    initSyncedObject c5demoState "k5" "custom"
        (some { debounceTime := some 42, safeMode := some false }) =
      .ok (c5demoState, c5demoObj) :=
  c5_factory_idempotent c5demoState "k5" "custom"
    (some { debounceTime := some 42, safeMode := some false }) c5demoObj rfl

/-- C6: deleting a registered key removes it from the registry, cancels the
pending task for the key (so its timer can no longer fire: the expiry step
for that key is a no-op afterwards), replaces modify on the stale reference
with a throwing function, and defers the delete notification until after
the removal is visible. -/
theorem c6_delete_semantics (s : ManagerState) (key : String) (obj : SyncedObject)
    (h : lookupA s.syncedObjects key = some obj) :
    lookupA (deleteSyncedObject s key).1.syncedObjects key = none ∧
    lookupA (deleteSyncedObject s key).1.pendingSyncTasks key = none ∧
    fireSyncTask (deleteSyncedObject s key).1 key = ((deleteSyncedObject s key).1, []) ∧
    (deleteSyncedObject s key).2.1 = some { obj with deleted := true } ∧
    (∀ arg pending now,
      SyncedObject.modify { obj with deleted := true } arg pending now =
        .error ⟨"Synced Object Modification: object has been deleted",
                obj.key, "deleteSyncedObject"⟩) ∧
    (deleteSyncedObject s key).2.2 = [Deferred.deleteNotify key] := by
  unfold deleteSyncedObject
  rw [h]
  refine ⟨lookupA_eraseA_self _ _, lookupA_eraseA_self _ _, ?_, rfl, ?_, rfl⟩
  · unfold fireSyncTask
    rw [lookupA_eraseA_self]
  · intro arg pending now
    rfl

/-- Concrete state for the C6 witness: a registered local object with a
pending push task. -/
def c6demoObj : SyncedObject :=
  { key := "k6", type := "local", data := Value.objV [], changelog := ["m"],
    debounceTime := 50, reloadBehavior := "prevent", safeMode := true,
    callerId := none }

def c6demoState : ManagerState :=
  { localStorage := [("k6", Value.numV 9)], syncedObjects := [("k6", c6demoObj)],
    pendingSyncTasks := [("k6", ⟨50, "push"⟩)], now := 10 }

theorem c6_delete_semantics_witness :
    lookupA (deleteSyncedObject c6demoState "k6").1.syncedObjects "k6" = none ∧
    lookupA (deleteSyncedObject c6demoState "k6").1.pendingSyncTasks "k6" = none ∧
    (deleteSyncedObject c6demoState "k6").2.2 = [Deferred.deleteNotify "k6"] ∧
    SyncedObject.modify { c6demoObj with deleted := true } (.dtArg none) [] 0 =
      .error ⟨"Synced Object Modification: object has been deleted",
              "k6", "deleteSyncedObject"⟩ :=
  ⟨(c6_delete_semantics c6demoState "k6" c6demoObj rfl).1,
   (c6_delete_semantics c6demoState "k6" c6demoObj rfl).2.1,
   (c6_delete_semantics c6demoState "k6" c6demoObj rfl).2.2.2.2.2,
   (c6_delete_semantics c6demoState "k6" c6demoObj rfl).2.2.2.2.1 (.dtArg none) [] 0⟩

/- Lemmas for the local-storage utilities. -/

theorem lookupA_removeKeysFromStore (ls : LocalStore) (ks : List String) (k : String) :
    lookupA (removeKeysFromStore ls ks) k =
      if k ∈ ks then none else lookupA ls k := by
  induction ks generalizing ls with
  | nil => simp [removeKeysFromStore]
  | cons k2 t ih =>
    simp only [removeKeysFromStore]
    rw [ih]
    by_cases hk : k ∈ t
    · simp [hk]
    · by_cases he : k = k2
      · subst he
        simp [hk, lookupA_eraseA_self]
      · simp [hk, he, lookupA_eraseA_ne ls k2 k he]

theorem lookupA_decoupleObjects (objs : List (String × SyncedObject))
    (ks : List String) (k : String) :
    lookupA (decoupleObjects objs ks) k =
      (lookupA objs k).map
        (fun o => if k ∈ ks then { o with type := "temp" } else o) := by
  induction ks generalizing objs with
  | nil =>
    simp only [decoupleObjects, List.not_mem_nil, if_false]
    cases lookupA objs k <;> rfl
  | cons k2 t ih =>
    rcases h2 : lookupA objs k2 with _ | o2
    · have hstep : decoupleObjects objs (k2 :: t) = decoupleObjects objs t := by
        simp [decoupleObjects, h2]
      rw [hstep, ih]
      by_cases he : k = k2
      · subst he
        rw [h2]
        rfl
      · simp [List.mem_cons, he]
    · have hstep : decoupleObjects objs (k2 :: t) =
          decoupleObjects (setA objs k2 { o2 with type := "temp" }) t := by
        simp [decoupleObjects, h2]
      rw [hstep, ih]
      by_cases he : k = k2
      · subst he
        rw [lookupA_setA_self, h2]
        by_cases hkt : k ∈ t <;> simp [hkt]
      · rw [lookupA_setA_ne _ _ _ _ he]
        simp [List.mem_cons, he]

theorem findKeys_ok_of_mem (ls : LocalStore) (keyPattern : KeyPattern) (key : String)
    (hm : key ∈ matchingKeysIn ls keyPattern) :
    findInLocalStorageKeys ls keyPattern = .ok (matchingKeysIn ls keyPattern) := by
  cases keyPattern with
  | strPat p =>
    by_cases hp : p = ""
    · subst hp
      simp [matchingKeysIn] at hm
    · simp [findInLocalStorageKeys, hp]
  | regexPat t => rfl

theorem forceSyncTask_temp_ls (ls : LocalStore) (obj : SyncedObject) (rt : String)
    (ht : obj.type = "temp") :
    (forceSyncTask ls obj rt).localStorage = ls := by
  have h1 : ¬ obj.type = "local" := by rw [ht]; decide
  have h2 : ¬ obj.type = "custom" := by rw [ht]; decide
  rw [forceSyncTask_ok (syncTry_other ls obj rt h1 h2)]

/-- C9: removeFromLocalStorage with the decouple policy on a durable local
object whose key is matched removes the matched slots from local storage,
turns the registered entity into a temp object in place (still retrievable
by get), returns the matched keys, and any subsequent sync attempt on the
decoupled entity performs no backend write at all. -/
theorem c9_decouple_semantics (s : ManagerState) (keyPattern : KeyPattern)
    (key : String) (obj : SyncedObject)
    (ho : lookupA s.syncedObjects key = some obj)
    (_htype : obj.type = "local")
    (hm : key ∈ matchingKeysIn s.localStorage keyPattern) :
    ∃ s1, removeFromLocalStorage s keyPattern "decouple" =
        .ok (s1, matchingKeysIn s.localStorage keyPattern, []) ∧
      lookupA s1.localStorage key = none ∧
      lookupA s1.syncedObjects key = some { obj with type := "temp" } ∧
      (∀ ls2 rt, (forceSyncTask ls2 { obj with type := "temp" } rt).localStorage = ls2) := by
  unfold removeFromLocalStorage
  rw [if_neg (by decide), findKeys_ok_of_mem _ _ _ hm]
  refine ⟨_, rfl, ?_, ?_, ?_⟩
  · simp [lookupA_removeKeysFromStore, hm]
  · rw [lookupA_decoupleObjects, ho]
    simp [hm]
  · intro ls2 rt
    exact forceSyncTask_temp_ls ls2 _ rt rfl

/-- Concrete state for the C9 witness: a durable object whose key is in
local storage. -/
def c9demoObj : SyncedObject :=
  { key := "a1", type := "local", data := Value.objV [("f", Value.numV 4)],
    changelog := [], debounceTime := 0, reloadBehavior := "prevent",
    safeMode := true, callerId := none }

def c9demoState : ManagerState :=
  { localStorage := [("a1", Value.numV 5)],
    syncedObjects := [("a1", c9demoObj)], pendingSyncTasks := [], now := 0 }

theorem c9_decouple_semantics_witness :
    ∃ s1, removeFromLocalStorage c9demoState (.strPat "a1") "decouple" =
        .ok (s1, ["a1"], []) ∧
      lookupA s1.localStorage "a1" = none ∧
      lookupA s1.syncedObjects "a1" = some { c9demoObj with type := "temp" } ∧
      (forceSyncTask [] { c9demoObj with type := "temp" } "push").localStorage = [] := by
  obtain ⟨s1, h1, h2, h3, h4⟩ :=
    c9_decouple_semantics c9demoState (.strPat "a1") "a1" c9demoObj rfl rfl (by decide)
  exact ⟨s1, h1, h2, h3, h4 [] "push"⟩

/- Lemmas about the modify pipeline. -/

theorem changelogPush_fields (obj : SyncedObject) (p? : Option String) :
    (changelogPush obj p?).key = obj.key ∧
    (changelogPush obj p?).data = obj.data ∧
    (changelogPush obj p?).debounceTime = obj.debounceTime ∧
    (changelogPush obj p?).safeMode = obj.safeMode ∧
    (changelogPush obj p?).type = obj.type ∧
    (changelogPush obj p?).deleted = obj.deleted := by
  cases p? with
  | none => exact ⟨rfl, rfl, rfl, rfl, rfl, rfl⟩
  | some p =>
    simp only [changelogPush]
    split <;> exact ⟨rfl, rfl, rfl, rfl, rfl, rfl⟩

theorem changelogPush_mem (obj : SyncedObject) (p? : Option String) (q : String) :
    q ∈ (changelogPush obj p?).changelog ↔
      q ∈ obj.changelog ∨ (p? = some q ∧ ¬ q = "") := by
  cases p? with
  | none => simp [changelogPush]
  | some p =>
    simp only [changelogPush]
    by_cases hpe : p = ""
    · rw [if_neg (by simp [hpe])]
      simp only [Option.some.injEq]
      constructor
      · exact fun hq => Or.inl hq
      · rintro (hq | ⟨hq, hne⟩)
        · exact hq
        · exact absurd (hq ▸ hpe) hne
    · by_cases hin : p ∈ obj.changelog
      · rw [if_neg (by simp [hin])]
        simp only [Option.some.injEq]
        constructor
        · exact fun hq => Or.inl hq
        · rintro (hq | ⟨hq, hne⟩)
          · exact hq
          · exact hq ▸ hin
      · rw [if_pos ⟨hpe, hin⟩]
        simp only [List.mem_append, List.mem_singleton, Option.some.injEq]
        constructor
        · rintro (hq | hq)
          · exact Or.inl hq
          · exact Or.inr ⟨hq.symm, fun h0 => hpe (hq.symm.trans h0)⟩
        · rintro (hq | ⟨hq, hne⟩)
          · exact Or.inl hq
          · exact Or.inr hq.symm

theorem changelogPush_nodup (obj : SyncedObject) (p? : Option String)
    (h : obj.changelog.Nodup) : (changelogPush obj p?).changelog.Nodup := by
  cases p? with
  | none => exact h
  | some p =>
    simp only [changelogPush]
    split
    · rename_i hcond
      simp [List.nodup_append, h, hcond.2]
    · exact h

theorem handleModifications_ok (obj : SyncedObject) (arg : ModifyArg)
    (pending : PendingMap) (now : Nat)
    (hval : modificationErrors obj (argProperty arg) = []) :
    handleModifications obj arg pending now =
      .ok (changelogPush obj (argProperty arg),
           queueSyncTask pending obj.key now (effDebounce obj arg) "push",
           [Deferred.modifyNotify obj.key]) := by
  unfold handleModifications
  rw [if_neg (by simp [hval])]

theorem modify_ok (obj : SyncedObject) (arg : ModifyArg)
    (pending : PendingMap) (now : Nat)
    (hdel : obj.deleted = false)
    (hval : modificationErrors obj (argProperty arg) = []) :
    SyncedObject.modify obj arg pending now =
      .ok ⟨changelogPush { obj with callerId := none } (argProperty arg),
           queueSyncTask pending obj.key now (effDebounce obj arg) "push",
           [Deferred.modifyNotify obj.key], none,
           (changelogPush { obj with callerId := none } (argProperty arg)).data⟩ := by
  have hval0 : modificationErrors { obj with callerId := none } (argProperty arg) = [] :=
    hval
  unfold SyncedObject.modify
  rw [if_neg (by simp [hdel])]
  simp only [handleModifications_ok _ _ _ _ hval0]
  rfl

/-- C10: for every argument combination that passes validation, both the
member modify method and the hook-returned modify wrapper return the data
field of the object itself, which the call leaves untouched, so a chained
property assignment lands on the tracked payload. -/
theorem c10_modify_returns_data (obj : SyncedObject) (arg : ModifyArg)
    (pending : PendingMap) (now cid : Nat)
    (hdel : obj.deleted = false)
    (hval : modificationErrors obj (argProperty arg) = []) :
    (∃ r : ModifyResult, SyncedObject.modify obj arg pending now = .ok r ∧
        r.rejection = none ∧ r.ret = r.obj.data ∧ r.obj.data = obj.data) ∧
    (∃ r : ModifyResult, hookModify (some obj) cid arg pending now = some r ∧
        r.rejection = none ∧ r.ret = r.obj.data ∧ r.obj.data = obj.data) := by
  have hval2 : modificationErrors { obj with callerId := some cid } (argProperty arg) = [] :=
    hval
  constructor
  · exact ⟨_, modify_ok obj arg pending now hdel hval, rfl, rfl,
      (changelogPush_fields { obj with callerId := none } (argProperty arg)).2.1⟩
  · exact ⟨⟨changelogPush { obj with callerId := some cid } (argProperty arg),
            queueSyncTask pending obj.key now (effDebounce obj arg) "push",
            [Deferred.modifyNotify obj.key], none,
            (changelogPush { obj with callerId := some cid } (argProperty arg)).data⟩,
          by
            unfold hookModify
            simp only [handleModifications_ok _ _ _ _ hval2]
            rfl,
          rfl, rfl,
          (changelogPush_fields { obj with callerId := some cid } (argProperty arg)).2.1⟩

/-- Concrete object for the C10 witness. -/
def c10demoObj : SyncedObject :=
  { key := "kX", type := "local", data := Value.objV [("prop", Value.strV "v")],
    changelog := [], debounceTime := 100, reloadBehavior := "prevent",
    safeMode := true, callerId := none }

theorem c10_modify_returns_data_witness :
    ((∃ r : ModifyResult,
        SyncedObject.modify c10demoObj (.propArg "prop" none) [] 0 = .ok r ∧
        r.rejection = none ∧ r.ret = r.obj.data ∧ r.obj.data = c10demoObj.data) ∧
     (∃ r : ModifyResult,
        hookModify (some c10demoObj) 5 (.propArg "prop" none) [] 0 = some r ∧
        r.rejection = none ∧ r.ret = r.obj.data ∧ r.obj.data = c10demoObj.data)) ∧
    ((∃ r : ModifyResult,
        SyncedObject.modify c10demoObj (.propArg "" none) [] 0 = .ok r ∧
        r.rejection = none ∧ r.ret = r.obj.data ∧ r.obj.data = c10demoObj.data) ∧
     (∃ r : ModifyResult,
        hookModify (some c10demoObj) 5 (.propArg "" none) [] 0 = some r ∧
        r.rejection = none ∧ r.ret = r.obj.data ∧ r.obj.data = c10demoObj.data)) :=
  ⟨c10_modify_returns_data c10demoObj (.propArg "prop" none) [] 0 5 rfl (by decide),
   c10_modify_returns_data c10demoObj (.propArg "" none) [] 0 5 rfl (by decide)⟩

/- Lemmas for coalesced modify sequences. -/

theorem effDebounce_congr {o1 o2 : SyncedObject} (h : o1.debounceTime = o2.debounceTime)
    (arg : ModifyArg) : effDebounce o1 arg = effDebounce o2 arg := by
  cases arg <;> simp [effDebounce, h]

theorem runModifies_cons {obj : SyncedObject} {pending : PendingMap} {c : ModCall}
    {cs : List ModCall} {obj2 : SyncedObject} {pending2 : PendingMap}
    (h : runModifies obj pending (c :: cs) = .ok (obj2, pending2)) :
    ∃ r : ModifyResult, SyncedObject.modify obj c.arg pending c.time = .ok r ∧
      r.rejection = none ∧ runModifies r.obj r.pending cs = .ok (obj2, pending2) := by
  unfold runModifies at h
  split at h
  · exact Except.noConfusion h
  · rename_i r heq
    split at h
    · exact Except.noConfusion h
    · rename_i hrej
      exact ⟨r, heq, hrej, h⟩

theorem modify_ok_inv {obj : SyncedObject} {arg : ModifyArg} {pending : PendingMap}
    {now : Nat} {r : ModifyResult}
    (h : SyncedObject.modify obj arg pending now = .ok r)
    (hrej : r.rejection = none) :
    r.obj = changelogPush { obj with callerId := none } (argProperty arg) ∧
    r.pending = queueSyncTask pending obj.key now (effDebounce obj arg) "push" := by
  unfold SyncedObject.modify at h
  split at h
  · exact Except.noConfusion h
  · split at h
    · rename_i e heq
      simp only [Except.ok.injEq] at h
      rw [← h] at hrej
      exact Option.noConfusion hrej
    · rename_i o1 p1 ds heq
      simp only [Except.ok.injEq] at h
      subst h
      unfold handleModifications at heq
      split at heq
      · exact Except.noConfusion heq
      · simp only [Except.ok.injEq, Prod.mk.injEq] at heq
        obtain ⟨h1, h2, h3⟩ := heq
        exact ⟨h1.symm, h2.symm⟩

theorem runModifies_ok_spec (cs : List ModCall) :
    ∀ (obj : SyncedObject) (pending : PendingMap)
      (obj2 : SyncedObject) (pending2 : PendingMap),
    runModifies obj pending cs = .ok (obj2, pending2) →
    obj2.key = obj.key ∧ obj2.data = obj.data ∧
    obj2.debounceTime = obj.debounceTime ∧ obj2.type = obj.type ∧
    (∀ q, q ∈ obj2.changelog ↔
      q ∈ obj.changelog ∨
        (some q ∈ cs.map (fun c => argProperty c.arg) ∧ ¬ q = "")) ∧
    (obj.changelog.Nodup → obj2.changelog.Nodup) ∧
    (match cs.getLast? with
     | none => pending2 = pending
     | some c =>
       lookupA pending2 obj.key = some ⟨c.time + effDebounce obj c.arg, "push"⟩ ∧
       countKey pending2 obj.key = 1) ∧
    (∀ k2, ¬ k2 = obj.key → lookupA pending2 k2 = lookupA pending k2) ∧
    (keysNodup pending → keysNodup pending2) := by
  induction cs with
  | nil =>
    intro obj pending obj2 pending2 h
    unfold runModifies at h
    simp only [Except.ok.injEq, Prod.mk.injEq] at h
    obtain ⟨h1, h2⟩ := h
    subst h1; subst h2
    refine ⟨rfl, rfl, rfl, rfl, ?_, fun hh => hh, rfl, fun _ _ => rfl, fun hh => hh⟩
    intro q
    simp
  | cons c cs ih =>
    intro obj pending obj2 pending2 h
    obtain ⟨r, hm, hrej, hrest⟩ := runModifies_cons h
    obtain ⟨hro, hrp⟩ := modify_ok_inv hm hrej
    have hcf := changelogPush_fields { obj with callerId := none } (argProperty c.arg)
    have hkey : r.obj.key = obj.key := by rw [hro]; exact hcf.1
    have hdata : r.obj.data = obj.data := by rw [hro]; exact hcf.2.1
    have hdt : r.obj.debounceTime = obj.debounceTime := by rw [hro]; exact hcf.2.2.1
    have htype : r.obj.type = obj.type := by rw [hro]; exact hcf.2.2.2.2.1
    obtain ⟨i1, i2, i3, i4, i5, i6, i7, i8, i9⟩ :=
      ih r.obj r.pending obj2 pending2 hrest
    refine ⟨i1.trans hkey, i2.trans hdata, i3.trans hdt, i4.trans htype,
            ?_, ?_, ?_, ?_, ?_⟩
    · intro q
      rw [i5 q, hro, changelogPush_mem]
      simp only [List.map_cons, List.mem_cons]
      constructor
      · rintro ((hq | ⟨hq, hne⟩) | ⟨hq, hne⟩)
        · exact Or.inl hq
        · exact Or.inr ⟨Or.inl hq.symm, hne⟩
        · exact Or.inr ⟨Or.inr hq, hne⟩
      · rintro (hq | ⟨hq | hq, hne⟩)
        · exact Or.inl (Or.inl hq)
        · exact Or.inl (Or.inr ⟨hq.symm, hne⟩)
        · exact Or.inr ⟨hq, hne⟩
    · intro hnd
      refine i6 ?_
      rw [hro]
      exact changelogPush_nodup _ _ hnd
    · have hrpA : r.pending =
          setA pending obj.key ⟨c.time + effDebounce obj c.arg, "push"⟩ := hrp
      cases cs with
      | nil =>
        have hp2 : pending2 = r.pending := i7
        rw [hp2, hrpA]
        exact ⟨lookupA_setA_self _ _ _, countKey_setA_self _ _ _⟩
      | cons c2 cs2 =>
        rcases hgl : (c2 :: cs2).getLast? with _ | clast
        · rw [List.getLast?_eq_none_iff] at hgl
          exact List.noConfusion hgl
        · have hp := i7
          rw [hgl] at hp
          rw [show (c :: c2 :: cs2).getLast? = (c2 :: cs2).getLast? from
                List.getLast?_cons_cons, hgl]
          rw [hkey] at hp
          have hp2 : lookupA pending2 obj.key =
              some ⟨clast.time + effDebounce r.obj clast.arg, "push"⟩ ∧
              countKey pending2 obj.key = 1 := hp
          rw [effDebounce_congr hdt clast.arg] at hp2
          exact hp2
    · intro k2 hk2
      have hk2r : ¬ k2 = r.obj.key := by rw [hkey]; exact hk2
      rw [i8 k2 hk2r, hrp]
      exact lookupA_setA_ne _ _ _ _ hk2
    · intro hnd
      refine i9 ?_
      rw [hrp]
      exact keysNodup_setA _ _ _ hnd

/-- C1 (amended): for a coalesced sequence of validated modify calls on one
object starting with an empty changelog and a well-formed pending map, the
pending map ends with exactly one task for the key, scheduled at the time
of the last call plus the effective delay of the last call alone; the
changelog equals the deduplicated union of the truthy (non-empty) property
names passed across the calls — an empty-string property name passes
validation but is silently dropped by the truthiness guard of the
changelog push; and after every prefix of the sequence at most one pending
task for the key exists and the map keys stay duplicate-free. -/
theorem c1_debounce_coalescing (obj : SyncedObject) (pending : PendingMap)
    (cs : List ModCall) (clast : ModCall) (obj2 : SyncedObject)
    (pending2 : PendingMap)
    (hlast : cs.getLast? = some clast)
    (hcl : obj.changelog = [])
    (hnd : keysNodup pending)
    (hrun : runModifies obj pending cs = .ok (obj2, pending2)) :
    countKey pending2 obj.key = 1 ∧
    keysNodup pending2 ∧
    lookupA pending2 obj.key =
      some ⟨clast.time + effDebounce obj clast.arg, "push"⟩ ∧
    obj2.changelog.Nodup ∧
    (∀ q, q ∈ obj2.changelog ↔
      some q ∈ cs.map (fun c => argProperty c.arg) ∧ ¬ q = "") ∧
    (∀ cs1 cs2, cs = cs1 ++ cs2 → ∀ o1 p1,
      runModifies obj pending cs1 = .ok (o1, p1) →
      countKey p1 obj.key ≤ 1 ∧ keysNodup p1) := by
  obtain ⟨h1, h2, h3, h4, h5, h6, h7, h8, h9⟩ :=
    runModifies_ok_spec cs obj pending obj2 pending2 hrun
  rw [hlast] at h7
  refine ⟨h7.2, h9 hnd, h7.1, h6 (by rw [hcl]; exact List.nodup_nil), ?_, ?_⟩
  · intro q
    rw [h5 q, hcl]
    simp
  · intro cs1 cs2 hsplit o1 p1 hrun1
    obtain ⟨g1, g2, g3, g4, g5, g6, g7, g8, g9⟩ :=
      runModifies_ok_spec cs1 obj pending o1 p1 hrun1
    rcases hgl : cs1.getLast? with _ | c1
    · rw [hgl] at g7
      rw [g7]
      exact ⟨countKey_le_one_of_nodup pending obj.key hnd, hnd⟩
    · rw [hgl] at g7
      exact ⟨le_of_eq g7.2, g9 hnd⟩

/-- Concrete object and call sequence for the C1 witness: the scenario of
two quick modify calls naming the same property, the second one passing a
zero debounce that overrides the default of 1000. -/
def c1demoObj : SyncedObject :=
  { key := "kc", type := "local", data := Value.objV [("prop", Value.strV "v")],
    changelog := [], debounceTime := 1000, reloadBehavior := "prevent",
    safeMode := true, callerId := none }

def c1calls : List ModCall :=
  [⟨.propArg "prop" none, 0⟩, ⟨.propArg "prop" (some 0), 5⟩]

theorem c1_debounce_coalescing_witness :
    ∃ obj2 pending2, runModifies c1demoObj [] c1calls = .ok (obj2, pending2) ∧
      countKey pending2 "kc" = 1 ∧
      lookupA pending2 "kc" = some ⟨5, "push"⟩ ∧
      obj2.changelog.Nodup ∧ "prop" ∈ obj2.changelog := by
  obtain ⟨o2, p2, hrun⟩ : ∃ o2 p2, runModifies c1demoObj [] c1calls = .ok (o2, p2) :=
    ⟨_, _, rfl⟩
  have h := c1_debounce_coalescing c1demoObj [] c1calls
    ⟨.propArg "prop" (some 0), 5⟩ o2 p2 rfl rfl (by decide) hrun
  exact ⟨o2, p2, hrun, h.1, h.2.2.1, h.2.2.2.1,
         (h.2.2.2.2.1 "prop").mpr (by decide)⟩

/-- Coalesced calls refuting the original C1 changelog clause: the second
call passes the empty-string property name, which the source validation
accepts and the changelog push silently drops. -/
def c1badCalls : List ModCall :=
  [⟨.propArg "prop" none, 0⟩, ⟨.propArg "" (some 0), 5⟩]

theorem c1_debounce_coalescing_counterexample :
    ∃ obj2 pending2,
      runModifies c1demoObj [] c1badCalls = .ok (obj2, pending2) ∧
      some "" ∈ c1badCalls.map (fun c => argProperty c.arg) ∧
      ¬ "" ∈ obj2.changelog := by
  refine ⟨_, _, rfl, by decide, by decide⟩

end ReactSyncedObject
